import Mathlib

/-!
Shallow embedding of the JournalSmart rule-matching and reconciliation engine
(app/models/account_mapping.py, app/models/db_account_mapping.py,
app/services/qbo.py, app/routes/api.py), with theorems checking the
natural-language specification against the code.

Python strings are modelled as `List Char`; `None`-able strings as
`Option (List Char)`.  The Python `re` module is modelled as an abstract
`RegexEngine` (a case-insensitive search primitive plus a compilation
predicate); all literal (non-regex) matching is fully concrete.
-/

/-- Python strings, modelled as lists of characters. -/
abbrev Str := List Char

/-- Convert a Lean string literal to the `Str` model. -/
def str (s : String) : Str := s.data

/-- Python `s.lower()`. -/
def lower (s : Str) : Str := s.map Char.toLower

/-- Python substring containment `p in s`: `p` is a prefix of some suffix of `s`. -/
def substrIn (p s : Str) : Bool :=
  p.isPrefixOf s ||
    match s with
    | [] => false
    | _ :: t => substrIn p t

/-- Python `s.find(p)`: index of the first occurrence of `p` in `s`, `-1` if absent. -/
def strFind (p s : Str) : Int :=
  if p.isPrefixOf s then 0
  else
    match s with
    | [] => -1
    | _ :: t =>
      let r := strFind p t
      if r < 0 then -1 else r + 1

/-- Python `s.strip()`: remove leading and trailing whitespace. -/
def pyStrip (s : Str) : Str :=
  ((s.dropWhile Char.isWhitespace).reverse.dropWhile Char.isWhitespace).reverse

/-- Abstract model of the Python `re` module as used by the code:
`search p d` is `re.search(p, d, re.IGNORECASE)` returning the match span
`(start, end)` when the pattern compiles and matches; `compiles p` is
whether `re.compile(p)` succeeds (searching an uncompilable pattern
raises `re.error`, which the code catches). -/
structure RegexEngine where
  search : Str → Str → Option (Nat × Nat)
  compiles : Str → Bool

/-- A degenerate regex engine (never compiles); literal matching ignores it. -/
def noRegex : RegexEngine := ⟨fun _ _ => none, fun _ => false⟩

/-- In-memory mapping rule (app/models/account_mapping.py, class AccountMapping). -/
structure AccountMapping where
  pattern : Str
  from_account_id : Str
  to_account_id : Str
  is_regex : Bool := false
deriving DecidableEq

/-- `AccountMapping.matches` (account_mapping.py lines 20-32): empty or missing
description never matches; regex rules use case-insensitive `re.search`
(an invalid pattern is caught and treated as no match); literal rules use
case-insensitive substring containment. -/
def AccountMapping.matches (re : RegexEngine) (m : AccountMapping)
    (description : Option Str) : Bool :=
  match description with
  | none => false
  | some d =>
    if d = [] then false
    else if m.is_regex then
      if re.compiles m.pattern then (re.search m.pattern d).isSome else false
    else
      substrIn (lower m.pattern) (lower d)

/-- Database mapping rule row (app/models/db_account_mapping.py, class DBAccountMapping). -/
structure DBAccountMapping where
  id : Int
  realm_id : Option Str
  pattern : Str
  from_account_id : Str
  from_account_name : Option Str
  to_account_id : Str
  to_account_name : Option Str
  is_active : Bool
  is_regex : Bool
  category : Option Str
  sort_order : Int
deriving DecidableEq

/-- `DBAccountMapping.matches` (db_account_mapping.py lines 50-62); the body is
a verbatim duplicate of `AccountMapping.matches` in the source. -/
def DBAccountMapping.matches (re : RegexEngine) (m : DBAccountMapping)
    (description : Option Str) : Bool :=
  match description with
  | none => false
  | some d =>
    if d = [] then false
    else if m.is_regex then
      if re.compiles m.pattern then (re.search m.pattern d).isSome else false
    else
      substrIn (lower m.pattern) (lower d)

/-- `DBAccountMapping.get_match_position` (db_account_mapping.py lines 64-81):
span of the match for highlighting, `(-1, -1)` when there is no match, the
pattern is invalid, or the description is empty. -/
def DBAccountMapping.get_match_position (re : RegexEngine) (m : DBAccountMapping)
    (description : Option Str) : Int × Int :=
  match description with
  | none => (-1, -1)
  | some d =>
    if d = [] then (-1, -1)
    else if m.is_regex then
      if re.compiles m.pattern then
        match re.search m.pattern d with
        | some (a, b) => ((a : Int), (b : Int))
        | none => (-1, -1)
      else (-1, -1)
    else
      let start := strFind (lower m.pattern) (lower d)
      if 0 ≤ start then (start, start + (m.pattern.length : Int)) else (-1, -1)

/-- The `ORDER BY sort_order ASC` relation used by the rule queries. -/
def bySortOrder (a b : DBAccountMapping) : Prop := a.sort_order ≤ b.sort_order

instance : DecidableRel bySortOrder := fun a b => Int.decLe a.sort_order b.sort_order

instance : IsTotal DBAccountMapping bySortOrder := ⟨fun a b => Int.le_total a.sort_order b.sort_order⟩

instance : IsTrans DBAccountMapping bySortOrder := ⟨fun _ _ _ => Int.le_trans⟩

/-- `DBAccountMapping.get_active_mappings` (db_account_mapping.py lines 120-126):
active rules, optionally filtered by realm, ordered by `sort_order` ascending. -/
def get_active_mappings (store : List DBAccountMapping)
    (realm_id : Option Str := none) : List DBAccountMapping :=
  let active := store.filter (fun m => m.is_active)
  let inScope :=
    match realm_id with
    | none => active
    | some r => active.filter (fun m => m.realm_id == some r)
  inScope.insertionSort bySortOrder

/-- The `AccountMapping(pattern=m.pattern, from_account_id=..., to_account_id=...)`
conversion in `QBOService.get_account_mappings` (qbo.py lines 190-194): the
stored `is_regex` flag is not forwarded, so it defaults to `False`. -/
def toAccountMapping (m : DBAccountMapping) : AccountMapping :=
  { pattern := m.pattern
    from_account_id := m.from_account_id
    to_account_id := m.to_account_id }

/-- `QBOService.get_account_mappings` (qbo.py lines 176-209): active database
rules (no realm filter is passed), falling back to the `.env` configuration
when the database has none. -/
def get_account_mappings (store : List DBAccountMapping)
    (cfg : List AccountMapping) : List AccountMapping :=
  let db_mappings := get_active_mappings store none
  if db_mappings.isEmpty then cfg else db_mappings.map toAccountMapping

/-- A QuickBooks account as consumed by the engine (`Account.Id`, `Account.Name`). -/
structure AccountInfo where
  Id : Str
  Name : Str
deriving DecidableEq

/-- Account reference on a journal line (`JournalEntryLineDetail.AccountRef`). -/
structure AccountRef where
  value : Str
  name : Option Str
deriving DecidableEq

/-- A journal entry line; `Description` and `Amount` are optional attributes
(the code uses `line.Description or ''` and a `hasattr` check for `Amount`). -/
structure JournalLine where
  Description : Option Str
  Amount : Option Int
  PostingType : Str
  AccountRef : AccountRef
deriving DecidableEq

/-- A journal entry fetched from the external ledger. -/
structure JournalEntry where
  Id : Str
  TxnDate : Option Str
  Line : List JournalLine
deriving DecidableEq

/-- Result of one external query (`Account.get` / `JournalEntry.get`): a value,
an empty (falsy) response, or a raised exception. -/
inductive QueryRes (α : Type) where
  | ok (a : α)
  | missing
  | err
deriving DecidableEq

/-- The external-ledger collaborator as the engine sees it: account lookup,
journal lookup, and whether `journal.save(qb=...)` raises for a given id. -/
structure Ledger where
  accounts : Str → QueryRes AccountInfo
  journals : Str → QueryRes JournalEntry
  saveFails : Str → Bool

/-- `QBOService._sanitize_id` (qbo.py lines 98-114): strip whitespace, then
accept only non-empty all-digit strings. -/
def sanitize_id (value : Str) : Option Str :=
  let v := pyStrip value
  if v ≠ [] ∧ v.all Char.isDigit then some v else none

/-- `QBOService.get_account_by_id` (qbo.py lines 135-170) as used by the
preview path: sanitize the id, then fetch the account; any failure (invalid
id, empty response, exception) yields `None`.  The time-based cache is not
modelled (it only re-serves the same collaborator value). -/
def get_account_by_id (ledger : Ledger) (account_id : Str) : Option AccountInfo :=
  match sanitize_id account_id with
  | none => none
  | some safe =>
    match ledger.accounts safe with
    | .ok a => some a
    | _ => none

/-- One line of a preview diff (qbo.py lines 296-305). -/
structure FormattedLine where
  description : Str
  amount : Int
  posting_type : Str
  current_account : AccountRef
  proposed_account : Option AccountInfo
deriving DecidableEq

/-- A preview diff entry (qbo.py lines 268-273). -/
structure FormattedJournal where
  id : Str
  date : Str
  lines : List FormattedLine
  has_changes : Bool
deriving DecidableEq

/-- Whether one mapping applies to one line: same source account and a
matching pattern (the condition of the inner loops at qbo.py lines 286-287
and 356-357). -/
def mapping_applies (re : RegexEngine) (line : JournalLine)
    (m : AccountMapping) : Bool :=
  m.from_account_id == line.AccountRef.value &&
    m.matches re (some (line.Description.getD []))

/-- The `for mapping in account_mappings: ... break` loops of qbo.py (lines
285-290 and 355-409): the first mapping that applies to the line wins, later
mappings are not tried. -/
def find_first_mapping (re : RegexEngine) (line : JournalLine) :
    List AccountMapping → Option AccountMapping
  | [] => none
  | m :: rest =>
    if mapping_applies re line m then some m
    else find_first_mapping re line rest

/-- The per-line loop of `QBOService._format_journal` (qbo.py lines 275-306):
skip lines whose account is not the selected one; find the first mapping with
matching source account and pattern (setting `has_changes`); emit the line
only when the proposed destination id is truthy (non-empty).  Returns the
formatted lines and the `has_changes` flag. -/
def format_lines (re : RegexEngine) (ledger : Ledger)
    (account_mappings : List AccountMapping) (selected_account_id : Str) :
    List JournalLine → List FormattedLine × Bool
  | [] => ([], false)
  | line :: rest =>
    if line.AccountRef.value ≠ selected_account_id then
      format_lines re ledger account_mappings selected_account_id rest
    else
      let description := line.Description.getD []
      let found := find_first_mapping re line account_mappings
      let (tailLines, tailHC) :=
        format_lines re ledger account_mappings selected_account_id rest
      match found with
      | none => (tailLines, tailHC)
      | some m =>
        if m.to_account_id ≠ [] then
          ({ description := description
             amount := line.Amount.getD 0
             posting_type := line.PostingType
             current_account := line.AccountRef
             proposed_account := get_account_by_id ledger m.to_account_id } :: tailLines,
           true)
        else (tailLines, true)

/-- `QBOService._format_journal` (qbo.py lines 264-314): format one journal,
returning it only when `has_changes` is set. -/
def format_journal (re : RegexEngine) (ledger : Ledger)
    (account_mappings : List AccountMapping) (selected_account_id : Str)
    (journal : JournalEntry) : Option FormattedJournal :=
  let (ls, hc) :=
    format_lines re ledger account_mappings selected_account_id journal.Line
  if hc then
    some { id := journal.Id, date := journal.TxnDate.getD [], lines := ls,
           has_changes := hc }
  else none

/-- `QBOService.get_journals_by_account` (qbo.py lines 211-262): sanitize the
account id; stage 1 keeps journals with at least one line on the selected
account; stage 2 formats each kept journal against the mappings, dropping
the ones that come back `None`.  `journals` is the collaborator's response to
the date-filtered query. -/
def get_journals_by_account (re : RegexEngine) (ledger : Ledger)
    (store : List DBAccountMapping) (cfg : List AccountMapping)
    (journals : List JournalEntry) (account_id : Str) : List FormattedJournal :=
  match sanitize_id account_id with
  | none => []
  | some safe =>
    let account_mappings := get_account_mappings store cfg
    let filtered := journals.filter (fun j =>
      j.Line.any (fun l => l.AccountRef.value == safe))
    filtered.filterMap (format_journal re ledger account_mappings safe)

/-- One applied-change record appended to `results` (qbo.py lines 403-408). -/
structure ChangeResult where
  journal_id : Str
  line_description : Str
  old_account : AccountRef
  new_account : AccountInfo
deriving DecidableEq

/-- One history row as created by `UpdateHistory.log_update` from
`update_journals_accounts` (qbo.py lines 392-399, update_history.py lines
65-91); `realm_id` and `mapping_id` are not passed by the caller and stay
`NULL`, so they are omitted.  The journal date is kept as the raw
`TxnDate` attribute (the `strptime` parse only reformats it). -/
structure HistoryEntry where
  journal_id : Str
  journal_date : Option Str
  line_description : Str
  from_account : AccountRef
  to_account : AccountInfo
  amount : Option Int
deriving DecidableEq

/-- Accumulated outcome of one `update_journals_accounts` call: the returned
`results` list, the history rows committed at the end of the batch, and the
ids of journals successfully saved to the external ledger. -/
structure ApplyOutcome where
  results : List ChangeResult
  history : List HistoryEntry
  saved : List Str
deriving DecidableEq

/-- The per-line loop of `update_journals_accounts` (qbo.py lines 349-409)
over one journal's lines.  For each line, the first mapping with matching
source account and pattern is taken (`break` ends the inner loop either
way): if `Account.get` on its destination raises, the whole journal's
processing stops there (the exception propagates to the per-journal
handler), keeping the results and history of earlier lines and suppressing
the save; if it returns nothing, the line is skipped with a warning; if it
returns the account, the line's account reference is updated, a history row
is logged and a result appended.  Returns
(results, history, journal_updated, raised). -/
def process_lines (re : RegexEngine) (ledger : Ledger)
    (account_mappings : List AccountMapping) (safe_id : Str)
    (journal_date : Option Str) :
    List JournalLine → List ChangeResult × List HistoryEntry × Bool × Bool
  | [] => ([], [], false, false)
  | line :: rest =>
    let description := line.Description.getD []
    let found := find_first_mapping re line account_mappings
    match found with
    | none => process_lines re ledger account_mappings safe_id journal_date rest
    | some m =>
      match ledger.accounts m.to_account_id with
      | .err => ([], [], false, true)
      | .missing =>
        process_lines re ledger account_mappings safe_id journal_date rest
      | .ok new_account =>
        let res : ChangeResult :=
          { journal_id := safe_id
            line_description := description
            old_account := line.AccountRef
            new_account := new_account }
        let h : HistoryEntry :=
          { journal_id := safe_id
            journal_date := journal_date
            line_description := description
            from_account := line.AccountRef
            to_account := new_account
            amount := line.Amount }
        let (rs, hs, _, raised) :=
          process_lines re ledger account_mappings safe_id journal_date rest
        (res :: rs, h :: hs, true, raised)

/-- The per-journal body of `update_journals_accounts` (qbo.py lines 330-420):
sanitize the id (invalid ids are skipped with a warning), fetch the journal
(an empty response or an exception skips it), process its lines, and save it
when at least one line changed and no exception interrupted the line loop;
a save exception is caught per journal, keeping the already-appended results
and history rows. -/
def process_journal (re : RegexEngine) (ledger : Ledger)
    (account_mappings : List AccountMapping) (journal_id : Str) :
    List ChangeResult × List HistoryEntry × List Str :=
  match sanitize_id journal_id with
  | none => ([], [], [])
  | some safe_id =>
    match ledger.journals safe_id with
    | .missing => ([], [], [])
    | .err => ([], [], [])
    | .ok journal =>
      let (rs, hs, journal_updated, raised) :=
        process_lines re ledger account_mappings safe_id journal.TxnDate
          journal.Line
      if raised then (rs, hs, [])
      else if journal_updated then
        if ledger.saveFails safe_id then (rs, hs, [])
        else (rs, hs, [safe_id])
      else (rs, hs, [])

/-- `QBOService.update_journals_accounts` (qbo.py lines 316-431): load the
mappings once, process each requested journal id independently, and commit
all queued history rows once at the end of the batch. -/
def update_journals_accounts (re : RegexEngine) (ledger : Ledger)
    (store : List DBAccountMapping) (cfg : List AccountMapping)
    (journal_ids : List Str) : ApplyOutcome :=
  let account_mappings := get_account_mappings store cfg
  go account_mappings journal_ids
where
  go (account_mappings : List AccountMapping) :
      List Str → ApplyOutcome
    | [] => { results := [], history := [], saved := [] }
    | jid :: rest =>
      let (rs, hs, sv) := process_journal re ledger account_mappings jid
      let tail := go account_mappings rest
      { results := rs ++ tail.results
        history := hs ++ tail.history
        saved := sv ++ tail.saved }

/-- `DBAccountMapping.get_next_sort_order` (db_account_mapping.py lines
136-142) as called with no realm: `(max(sort_order) or 0) + 1` over the
whole table. -/
def get_next_sort_order (store : List DBAccountMapping) : Int :=
  (store.foldl (fun acc m => max acc m.sort_order) 0) + 1

/-- Autoincrement primary key for a new row. -/
def next_id (store : List DBAccountMapping) : Int :=
  (store.foldl (fun acc m => max acc m.id) 0) + 1

/-- Request body of `POST /api/mappings`.  A missing required key and a
present-but-falsy value are rejected identically, so required string fields
are plain strings with `[]` standing for missing/empty; `is_active` and
`is_regex` model `data.get(..., default)`. -/
structure CreateInput where
  pattern : Str
  from_account_id : Str
  from_account_name : Option Str := none
  to_account_id : Str
  to_account_name : Option Str := none
  is_active : Bool := true
  is_regex : Bool := false
  category : Str := []
deriving DecidableEq

/-- Response of `create_mapping`, paired with the resulting store state. -/
inductive CreateResp where
  | created (m : DBAccountMapping)
  | missingField
  | duplicate
  | badRegex
deriving DecidableEq

/-- `create_mapping` (api.py lines 55-117): validate required fields, reject
when an active rule with the same (pattern, from_account_id) exists anywhere
in the table (the query has no realm filter), validate the regex, then
insert with the next global sort_order.  The route never sets `realm_id`,
so the new row's realm is `NULL`.  Errors leave the store unchanged. -/
def create_mapping (reOk : Str → Bool) (store : List DBAccountMapping)
    (data : CreateInput) : List DBAccountMapping × CreateResp :=
  if data.pattern = [] then (store, .missingField)
  else if data.from_account_id = [] then (store, .missingField)
  else if data.to_account_id = [] then (store, .missingField)
  else if store.any (fun m =>
      m.pattern == data.pattern &&
        m.from_account_id == data.from_account_id && m.is_active) then
    (store, .duplicate)
  else if data.is_regex ∧ ¬ reOk data.pattern then (store, .badRegex)
  else
    let m : DBAccountMapping :=
      { id := next_id store
        realm_id := none
        pattern := data.pattern
        from_account_id := data.from_account_id
        from_account_name := data.from_account_name
        to_account_id := data.to_account_id
        to_account_name := data.to_account_name
        is_active := data.is_active
        is_regex := data.is_regex
        category := if pyStrip data.category = [] then none
                    else some (pyStrip data.category)
        sort_order := get_next_sort_order store }
    (store ++ [m], .created m)

/-- `toggle_mapping` (api.py lines 213-235): flip `is_active` of the rule with
the given primary key; `none` models the 404 when the id is absent. -/
def toggle_mapping (store : List DBAccountMapping) (mapping_id : Int) :
    Option (List DBAccountMapping) :=
  if store.any (fun m => m.id == mapping_id) then
    some (store.map (fun m =>
      if m.id == mapping_id then { m with is_active := !m.is_active } else m))
  else none

/-- `reorder_mappings` (api.py lines 238-268): for each position in the order
list, set the matching rule's `sort_order` to that index; absent ids are
skipped; one commit at the end makes the write atomic. -/
def reorder_mappings (store : List DBAccountMapping) (order : List Int) :
    List DBAccountMapping :=
  order.enum.foldl
    (fun st p =>
      st.map (fun m =>
        if m.id == p.2 then { m with sort_order := (p.1 : Int) } else m))
    store

/-- `list_mappings` (api.py lines 25-48): all rules ordered by `sort_order`
ascending, filtered to active ones when `active_only` (the default). -/
def list_mappings (store : List DBAccountMapping) (active_only : Bool) :
    List DBAccountMapping :=
  ((if active_only then store.filter (fun m => m.is_active)
    else store)).insertionSort bySortOrder

/-- One element of the export JSON array (api.py lines 504-516).  Every key is
present; `category` and the display names are `null` when unset. -/
structure ExportItem where
  pattern : Str
  from_account_id : Str
  from_account_name : Option Str
  to_account_id : Str
  to_account_name : Option Str
  is_active : Bool
  is_regex : Bool
  category : Option Str
deriving DecidableEq

/-- `export_mappings` (api.py lines 495-522): all rules ordered by
`sort_order`, projected to the export fields. -/
def export_mappings (store : List DBAccountMapping) : List ExportItem :=
  (store.insertionSort bySortOrder).map (fun m =>
    { pattern := m.pattern
      from_account_id := m.from_account_id
      from_account_name := m.from_account_name
      to_account_id := m.to_account_id
      to_account_name := m.to_account_name
      is_active := m.is_active
      is_regex := m.is_regex
      category := m.category })

/-- The `mapping_data.get("category", "").strip() or None` step of the import
loop (api.py line 470) on an item whose `category` key is present: a `null`
value reaches `None.strip()` and raises `AttributeError` (`none` result). -/
def importCategory : Option Str → Option (Option Str)
  | none => none
  | some s =>
    let t := pyStrip s
    some (if t = [] then none else some t)

/-- Result of one `import_mappings` call: either the final store with the
(imported, skipped) counters, or the uncaught exception path — the route
handler catches it, rolls the session back (discarding every insert of the
batch) and returns a 500. -/
inductive ImportResult where
  | done (store : List DBAccountMapping) (imported skipped : Nat)
  | attrError
deriving DecidableEq

/-- `import_mappings` (api.py lines 415-492) applied to an array of export
items (all keys present, so the required-field presence check passes): per
item, validate the regex, skip duplicates of (pattern, from_account_id) over
the table including rows added earlier in the batch (the duplicate query
autoflushes pending inserts and does not filter on `is_active`), then insert.
An exception — in particular `AttributeError` from a `null` category —
reaches the route handler, which rolls the whole session back, so the error
case discards every insert.  Returns the final store with the
(imported, skipped) counters. -/
def import_mappings (reOk : Str → Bool) (store : List DBAccountMapping)
    (items : List ExportItem) : ImportResult :=
  go store 0 0 items
where
  go (st : List DBAccountMapping) (imported skipped : Nat) :
      List ExportItem → ImportResult
    | [] => .done st imported skipped
    | item :: rest =>
      if item.is_regex ∧ ¬ reOk item.pattern then
        go st imported (skipped + 1) rest
      else if st.any (fun m =>
          m.pattern == item.pattern &&
            m.from_account_id == item.from_account_id) then
        go st imported (skipped + 1) rest
      else
        match importCategory item.category with
        | none => .attrError
        | some cat =>
          let m : DBAccountMapping :=
            { id := next_id st
              realm_id := none
              pattern := item.pattern
              from_account_id := item.from_account_id
              from_account_name := item.from_account_name
              to_account_id := item.to_account_id
              to_account_name := item.to_account_name
              is_active := item.is_active
              is_regex := item.is_regex
              category := cat
              sort_order := get_next_sort_order st }
          go (st ++ [m]) (imported + 1) skipped rest


theorem substrIn_nil (p : Str) : substrIn p [] = (p.isPrefixOf [] || false) := rfl

theorem substrIn_cons (p : Str) (a : Char) (t : Str) :
    substrIn p (a :: t) = (p.isPrefixOf (a :: t) || substrIn p t) := rfl

theorem strFind_nil (p : Str) :
    strFind p [] = if p.isPrefixOf [] then 0 else -1 := rfl

theorem strFind_cons (p : Str) (a : Char) (t : Str) :
    strFind p (a :: t) =
      if p.isPrefixOf (a :: t) then 0
      else if strFind p t < 0 then -1 else strFind p t + 1 := rfl

theorem substrIn_iff_exists (p s : Str) :
    substrIn p s = true ↔ ∃ i, p.isPrefixOf (s.drop i) = true := by
  induction s with
  | nil =>
    rw [substrIn_nil, Bool.or_false]
    constructor
    · intro h; exact ⟨0, h⟩
    · rintro ⟨i, hi⟩; rwa [List.drop_nil] at hi
  | cons a t ih =>
    rw [substrIn_cons, Bool.or_eq_true, ih]
    constructor
    · rintro (h | ⟨i, hi⟩)
      · exact ⟨0, h⟩
      · exact ⟨i + 1, hi⟩
    · rintro ⟨i, hi⟩
      cases i with
      | zero => exact Or.inl hi
      | succ j => exact Or.inr ⟨j, hi⟩

theorem substrIn_iff_strFind (p s : Str) :
    substrIn p s = true ↔ 0 ≤ strFind p s := by
  induction s with
  | nil =>
    rw [substrIn_nil, Bool.or_false, strFind_nil]
    by_cases hp : p.isPrefixOf [] = true
    · rw [if_pos hp]
      exact iff_of_true hp (by omega)
    · rw [if_neg hp]
      exact iff_of_false hp (by omega)
  | cons a t ih =>
    rw [substrIn_cons, Bool.or_eq_true, ih, strFind_cons]
    by_cases hp : p.isPrefixOf (a :: t) = true
    · rw [if_pos hp]
      exact iff_of_true (Or.inl hp) (by omega)
    · rw [if_neg hp]
      rcases lt_or_le (strFind p t) 0 with hneg | hpos
      · rw [if_pos hneg]
        constructor
        · rintro (h | h)
          · exact absurd h hp
          · omega
        · omega
      · rw [if_neg (not_lt.mpr hpos)]
        exact iff_of_true (Or.inr hpos) (by omega)

theorem strFind_prefix (p s : Str) (h : 0 ≤ strFind p s) :
    p.isPrefixOf (s.drop (strFind p s).toNat) = true := by
  induction s with
  | nil =>
    by_cases hp : p.isPrefixOf [] = true
    · simp [strFind_nil, hp]
    · simp only [Bool.not_eq_true] at hp
      rw [strFind_nil] at h
      simp only [hp, Bool.false_eq_true, if_false] at h
      omega
  | cons a t ih =>
    by_cases hp : p.isPrefixOf (a :: t) = true
    · simp [strFind_cons, hp]
    · simp only [Bool.not_eq_true] at hp
      rw [strFind_cons] at h ⊢
      simp only [hp, Bool.false_eq_true, if_false] at h ⊢
      rcases lt_or_le (strFind p t) 0 with hneg | hpos
      · simp only [if_pos hneg] at h; omega
      · have hn : ¬ strFind p t < 0 := not_lt.mpr hpos
        simp only [if_neg hn] at h ⊢
        have hpre := ih hpos
        have htn : (strFind p t + 1).toNat = (strFind p t).toNat + 1 := by omega
        rw [htn, List.drop_succ_cons]
        exact hpre

theorem strFind_least (p s : Str) (j : Nat) (h : (j : Int) < strFind p s) :
    p.isPrefixOf (s.drop j) = false := by
  induction s generalizing j with
  | nil =>
    rw [strFind_nil] at h
    split at h <;> omega
  | cons a t ih =>
    by_cases hp : p.isPrefixOf (a :: t) = true
    · rw [strFind_cons] at h
      simp only [hp, if_true] at h
      omega
    · simp only [Bool.not_eq_true] at hp
      rw [strFind_cons] at h
      simp only [hp, Bool.false_eq_true, if_false] at h
      rcases lt_or_le (strFind p t) 0 with hneg | hpos
      · simp only [if_pos hneg] at h; omega
      · have hn : ¬ strFind p t < 0 := not_lt.mpr hpos
        simp only [if_neg hn] at h
        cases j with
        | zero => simpa using hp
        | succ k =>
          rw [List.drop_succ_cons]
          exact ih k (by push_cast at h ⊢; omega)

/-- C6 (counterexample): the claimed equivalence "matches(P, D) is true iff
P.lower() is contained in D.lower()" fails at P = "" and D = "": the empty
pattern is contained in the empty description, yet `matches` returns false
because an empty description is rejected first. -/
theorem c6_counterexample :
    ¬ ((AccountMapping.matches noRegex
          { pattern := [], from_account_id := str "60", to_account_id := str "62" }
          (some []) = true) ↔
        ∃ i, (lower ([] : Str)).isPrefixOf ((lower ([] : Str)).drop i) = true) := by
  intro h
  have h2 := h.mpr ⟨0, by decide⟩
  exact absurd h2 (by decide)

/-- C6 (amended): for a literal (non-regex) rule, `matches` agrees with
case-insensitive substring containment of the pattern in the description for
every NON-EMPTY description, and returns false for an empty or missing
description (even when the pattern is empty and containment would hold). -/
theorem c6_literal_match_iff_substring (re : RegexEngine) (m : AccountMapping)
    (hreg : m.is_regex = false) :
    (∀ d : Str, d ≠ [] →
      (m.matches re (some d) = true ↔
        ∃ i, (lower m.pattern).isPrefixOf ((lower d).drop i) = true)) ∧
    m.matches re (some []) = false ∧ m.matches re none = false := by
  refine ⟨fun d hd => ?_, by simp [AccountMapping.matches], rfl⟩
  rw [show m.matches re (some d) = substrIn (lower m.pattern) (lower d) by
    simp [AccountMapping.matches, hd, hreg]]
  exact substrIn_iff_exists _ _

/-- Witness for C6 (amended) at a concrete literal rule and description. -/
theorem c6_witness :
    ((⟨str "amazon", str "60", str "62", false⟩ : AccountMapping).is_regex
        = false) ∧
    (str "AMAZON WEB SERVICES" ≠ ([] : Str)) ∧
    ((AccountMapping.matches noRegex
        ⟨str "amazon", str "60", str "62", false⟩
        (some (str "AMAZON WEB SERVICES")) = true) ↔
      ∃ i, (lower (str "amazon")).isPrefixOf
        ((lower (str "AMAZON WEB SERVICES")).drop i) = true) :=
  ⟨rfl, by decide,
    (c6_literal_match_iff_substring noRegex
      ⟨str "amazon", str "60", str "62", false⟩ rfl).1
      (str "AMAZON WEB SERVICES") (by decide)⟩

/-- C10 (confirmed): `matches` is true exactly when `get_match_position`
returns a pair other than (-1, -1); a missing/empty description or an
uncompilable pattern yields the sentinel; for a literal pattern a successful
result is `(i, i + len(pattern))` where `i` is the first case-insensitive
occurrence of the pattern in the description. -/
theorem c10_matches_iff_position (re : RegexEngine) (m : DBAccountMapping) :
    (∀ d, (m.matches re d = true ↔ m.get_match_position re d ≠ (-1, -1))) ∧
    (m.get_match_position re none = (-1, -1) ∧
      m.get_match_position re (some []) = (-1, -1)) ∧
    (m.is_regex = true → re.compiles m.pattern = false →
      ∀ d, m.get_match_position re d = (-1, -1)) ∧
    (m.is_regex = false → ∀ d : Str, m.matches re (some d) = true →
      ∃ i : Nat,
        m.get_match_position re (some d)
            = ((i : Int), (i : Int) + (m.pattern.length : Int)) ∧
        (lower m.pattern).isPrefixOf ((lower d).drop i) = true ∧
        ∀ j, j < i → (lower m.pattern).isPrefixOf ((lower d).drop j) = false) := by
  refine ⟨?_, ⟨by simp [DBAccountMapping.get_match_position],
      by simp [DBAccountMapping.get_match_position]⟩, ?_, ?_⟩
  · intro d
    cases d with
    | none =>
      simp [DBAccountMapping.matches, DBAccountMapping.get_match_position]
    | some d =>
      by_cases hd : d = []
      · subst hd
        simp [DBAccountMapping.matches, DBAccountMapping.get_match_position]
      · by_cases hreg : m.is_regex = true
        · by_cases hc : re.compiles m.pattern = true
          · rcases hsearch : re.search m.pattern d with _ | ⟨a, b⟩
            · simp [DBAccountMapping.matches, DBAccountMapping.get_match_position,
                hd, hreg, hc, hsearch]
            · simp only [DBAccountMapping.matches,
                DBAccountMapping.get_match_position, hd, hreg, hc, hsearch]
              simp [Prod.mk.injEq]
          · have hc0 : re.compiles m.pattern = false := by simpa using hc
            simp [DBAccountMapping.matches, DBAccountMapping.get_match_position,
              hd, hreg, hc0]
        · have hr : m.is_regex = false := by simpa using hreg
          by_cases hf : 0 ≤ strFind (lower m.pattern) (lower d)
          · have hsub : substrIn (lower m.pattern) (lower d) = true :=
              (substrIn_iff_strFind _ _).mpr hf
            simp [DBAccountMapping.matches, DBAccountMapping.get_match_position,
              hd, hr, hsub, hf, Prod.mk.injEq]
            omega
          · have hsub : substrIn (lower m.pattern) (lower d) = false := by
              by_contra hcon
              exact hf ((substrIn_iff_strFind _ _).mp (by simpa using hcon))
            simp [DBAccountMapping.matches, DBAccountMapping.get_match_position,
              hd, hr, hsub, hf]
  · intro hreg hc d
    cases d with
    | none => simp [DBAccountMapping.get_match_position]
    | some d =>
      by_cases hd : d = []
      · subst hd
        simp [DBAccountMapping.get_match_position]
      · simp [DBAccountMapping.get_match_position, hd, hreg, hc]
  · intro hr d hm
    by_cases hd : d = []
    · subst hd
      simp [DBAccountMapping.matches] at hm
    · have hsub : substrIn (lower m.pattern) (lower d) = true := by
        simpa [DBAccountMapping.matches, hd, hr] using hm
      have hf : 0 ≤ strFind (lower m.pattern) (lower d) :=
        (substrIn_iff_strFind _ _).mp hsub
      refine ⟨(strFind (lower m.pattern) (lower d)).toNat, ?_, ?_, ?_⟩
      · simp [DBAccountMapping.get_match_position, hd, hr, hf,
          Int.toNat_of_nonneg hf]
      · exact strFind_prefix _ _ hf
      · intro j hj
        refine strFind_least _ _ j ?_
        have := Int.toNat_of_nonneg hf
        omega

/-- Witness for C10: a concrete literal rule and description, exercising the
iff, the invalid-pattern branch, and the literal span characterisation. -/
theorem c10_witness :
    ((⟨1, none, str "amazon", str "60", none, str "62", none, true, false,
        none, 0⟩ : DBAccountMapping).is_regex = false) ∧
    (DBAccountMapping.matches noRegex
      ⟨1, none, str "amazon", str "60", none, str "62", none, true, false,
        none, 0⟩ (some (str "MY AMAZON ORDER")) = true) ∧
    (∃ i : Nat,
      DBAccountMapping.get_match_position noRegex
          ⟨1, none, str "amazon", str "60", none, str "62", none, true, false,
            none, 0⟩ (some (str "MY AMAZON ORDER"))
          = ((i : Int), (i : Int) + ((str "amazon").length : Int)) ∧
      (lower (str "amazon")).isPrefixOf
          ((lower (str "MY AMAZON ORDER")).drop i) = true ∧
      ∀ j, j < i →
        (lower (str "amazon")).isPrefixOf
          ((lower (str "MY AMAZON ORDER")).drop j) = false) :=
  ⟨rfl, by decide,
    (c10_matches_iff_position noRegex
        ⟨1, none, str "amazon", str "60", none, str "62", none, true, false,
          none, 0⟩).2.2.2 rfl (str "MY AMAZON ORDER") (by decide)⟩

theorem process_journal_invalid (re : RegexEngine) (ledger : Ledger)
    (maps : List AccountMapping) (jid : Str) (h : sanitize_id jid = none) :
    process_journal re ledger maps jid = ([], [], []) := by
  simp [process_journal, h]

/-- C9 (confirmed): `update_journals_accounts` on any batch behaves exactly as
on the sub-batch of ids surviving `_sanitize_id` — malformed ids contribute
nothing — and an id is accepted precisely when, after stripping whitespace,
it is a non-empty all-digit string. -/
theorem c9_malformed_ids_dropped (re : RegexEngine) (ledger : Ledger)
    (store : List DBAccountMapping) (cfg : List AccountMapping)
    (journal_ids : List Str) :
    update_journals_accounts re ledger store cfg journal_ids =
      update_journals_accounts re ledger store cfg
        (journal_ids.filter (fun i => (sanitize_id i).isSome)) ∧
    (∀ v w : Str, sanitize_id v = some w ↔
      (w = pyStrip v ∧ w ≠ [] ∧ w.all Char.isDigit = true)) := by
  constructor
  · induction journal_ids with
    | nil => rfl
    | cons jid rest ih =>
      by_cases h : (sanitize_id jid).isSome
      · have hf : (jid :: rest).filter (fun i => (sanitize_id i).isSome) =
            jid :: rest.filter (fun i => (sanitize_id i).isSome) := by
          simp [List.filter, h]
        rw [hf]
        simp only [update_journals_accounts, update_journals_accounts.go] at ih ⊢
        rw [ih]
      · have hnone : sanitize_id jid = none := by
          cases hs : sanitize_id jid with
          | none => rfl
          | some w => rw [hs] at h; simp at h
        have hf : (jid :: rest).filter (fun i => (sanitize_id i).isSome) =
            rest.filter (fun i => (sanitize_id i).isSome) := by
          simp [List.filter, hnone]
        rw [hf]
        simp only [update_journals_accounts, update_journals_accounts.go] at ih ⊢
        rw [process_journal_invalid re ledger _ jid hnone, ← ih]
        simp
  · intro v w
    simp only [sanitize_id]
    split <;> rename_i hcond
    · constructor
      · intro h
        cases h
        exact ⟨rfl, hcond.1, hcond.2⟩
      · rintro ⟨hw, _, _⟩
        rw [hw]
    · constructor
      · intro h
        cases h
      · rintro ⟨hw, hne, hdig⟩
        subst hw
        exact absurd ⟨hne, hdig⟩ hcond

theorem find_first_mapping_eq_find? (re : RegexEngine) (line : JournalLine)
    (maps : List AccountMapping) :
    find_first_mapping re line maps = maps.find? (mapping_applies re line) := by
  induction maps with
  | nil => rfl
  | cons m rest ih =>
    by_cases h : mapping_applies re line m = true
    · simp [find_first_mapping, List.find?_cons, h]
    · simp only [Bool.not_eq_true] at h
      simp [find_first_mapping, List.find?_cons, h, ih]

theorem find_first_mapping_spec (re : RegexEngine) (line : JournalLine)
    (maps : List AccountMapping) (m' : AccountMapping)
    (h : find_first_mapping re line maps = some m') :
    mapping_applies re line m' = true ∧
      ∃ pre post, maps = pre ++ m' :: post ∧
        ∀ m'' ∈ pre, mapping_applies re line m'' = false := by
  rw [find_first_mapping_eq_find?] at h
  rcases List.find?_eq_some.mp h with ⟨happ, pre, post, hsplit, hpre⟩
  refine ⟨happ, pre, post, hsplit, fun m'' hm => ?_⟩
  have := hpre m'' hm
  simpa using this

theorem get_active_mappings_sorted (store : List DBAccountMapping)
    (realm_id : Option Str) :
    List.Pairwise (fun a b => a.sort_order ≤ b.sort_order)
      (get_active_mappings store realm_id) := by
  cases realm_id with
  | none => exact List.sorted_insertionSort bySortOrder _
  | some r => exact List.sorted_insertionSort bySortOrder _

theorem format_lines_eq (re : RegexEngine) (ledger : Ledger)
    (maps : List AccountMapping) (sel : Str) (lines : List JournalLine) :
    format_lines re ledger maps sel lines =
      (lines.filterMap (fun line =>
          if line.AccountRef.value ≠ sel then none
          else
            match find_first_mapping re line maps with
            | none => none
            | some m =>
              if m.to_account_id ≠ [] then
                some { description := line.Description.getD []
                       amount := line.Amount.getD 0
                       posting_type := line.PostingType
                       current_account := line.AccountRef
                       proposed_account :=
                         get_account_by_id ledger m.to_account_id }
              else none),
        lines.any (fun line => line.AccountRef.value == sel &&
          (find_first_mapping re line maps).isSome)) := by
  induction lines with
  | nil => rfl
  | cons line rest ih =>
    by_cases hsel : line.AccountRef.value = sel
    · rcases hff : find_first_mapping re line maps with _ | m
      · simp [format_lines, List.filterMap_cons, hsel, hff, ih]
      · by_cases hto : m.to_account_id = []
        · simp [format_lines, List.filterMap_cons, hsel, hff, hto, ih]
        · simp [format_lines, List.filterMap_cons, hsel, hff, hto, ih]
    · simp [format_lines, List.filterMap_cons, hsel, ih]

/-- Fixture: an active literal rule that belongs to realm "9". -/
def rule9 : DBAccountMapping :=
  ⟨1, some (str "9"), str "amazon", str "60", none, str "62",
    some (str "AWS Costs"), true, false, none, 0⟩

/-- Fixture: a store whose only rule lives in realm "9". -/
def store1 : List DBAccountMapping := [rule9]

/-- Fixture: a ledger collaborator with no accounts and no journals. -/
def ledgerNone : Ledger :=
  ⟨fun _ => .missing, fun _ => .missing, fun _ => false⟩

/-- Fixture: a journal line on account 60 with a matching description. -/
def line60 : JournalLine :=
  ⟨some (str "AMAZON WEB SERVICES INVOICE"), some 100, str "Debit",
    ⟨str "60", some (str "Expenses")⟩⟩

/-- Fixture: a journal entry containing `line60`. -/
def j1 : JournalEntry := ⟨str "301", some (str "2025-01-15"), [line60]⟩

/-- C1 (counterexample): the lines are NOT evaluated against the active rule
set *for the requested scope*.  With the only stored rule belonging to realm
"9", the active rule set for scope "130" is empty — under the claim the
entry would have no proposal and be dropped — yet the code, which loads
mappings with no realm filter, still proposes a change for it. -/
theorem c1_counterexample :
    get_active_mappings store1 (some (str "130")) = [] ∧
    format_journal noRegex ledgerNone (get_account_mappings store1 [])
        (str "60") j1 ≠ none := by
  constructor
  · decide
  · decide

/-- C1 (amended): each line of a kept entry whose account equals the selected
account is evaluated against the GLOBAL active rule set — all realms, since
`get_account_mappings` passes no realm filter — taken in ascending
`sort_order`; the first rule whose `from_account_id` equals the line's
account and whose pattern matches wins (no later rule is consulted), and the
line's proposal is built from that rule's `to_account_id`. -/
theorem c1_first_match_wins (re : RegexEngine) (ledger : Ledger)
    (store : List DBAccountMapping) (cfg : List AccountMapping) (sel : Str) :
    List.Pairwise (fun a b => a.sort_order ≤ b.sort_order)
      (get_active_mappings store none) ∧
    ((get_active_mappings store none).isEmpty = false →
      get_account_mappings store cfg
        = (get_active_mappings store none).map toAccountMapping) ∧
    (∀ lines, format_lines re ledger (get_account_mappings store cfg) sel lines
      = (lines.filterMap (fun line =>
            if line.AccountRef.value ≠ sel then none
            else
              match find_first_mapping re line (get_account_mappings store cfg) with
              | none => none
              | some m =>
                if m.to_account_id ≠ [] then
                  some { description := line.Description.getD []
                         amount := line.Amount.getD 0
                         posting_type := line.PostingType
                         current_account := line.AccountRef
                         proposed_account :=
                           get_account_by_id ledger m.to_account_id }
                else none),
          lines.any (fun line => line.AccountRef.value == sel &&
            (find_first_mapping re line (get_account_mappings store cfg)).isSome))) ∧
    (∀ (l : JournalLine) (m' : AccountMapping),
      find_first_mapping re l (get_account_mappings store cfg) = some m' →
      mapping_applies re l m' = true ∧
        ∃ pre post, get_account_mappings store cfg = pre ++ m' :: post ∧
          ∀ m'' ∈ pre, mapping_applies re l m'' = false) := by
  refine ⟨get_active_mappings_sorted store none, fun hne => ?_,
    fun lines => format_lines_eq re ledger _ sel lines,
    fun l m' h => find_first_mapping_spec re l _ m' h⟩
  simp [get_account_mappings, hne]

/-- Witness for C1 (amended): the first-match decomposition at a concrete
store, line and rule. -/
theorem c1_witness :
    mapping_applies noRegex line60 (toAccountMapping rule9) = true ∧
    ∃ pre post,
      get_account_mappings store1 [] = pre ++ toAccountMapping rule9 :: post ∧
      ∀ m'' ∈ pre, mapping_applies noRegex line60 m'' = false :=
  (c1_first_match_wins noRegex ledgerNone store1 [] (str "60")).2.2.2
    line60 (toAccountMapping rule9) (by decide)

theorem find_first_mapping_mem (re : RegexEngine) (line : JournalLine)
    (maps : List AccountMapping) (m' : AccountMapping)
    (h : find_first_mapping re line maps = some m') : m' ∈ maps := by
  rw [find_first_mapping_eq_find?] at h
  exact List.mem_of_find?_eq_some h

theorem format_journal_eq (re : RegexEngine) (ledger : Ledger)
    (maps : List AccountMapping) (safe : Str) (j : JournalEntry) :
    format_journal re ledger maps safe j =
      (if j.Line.any (fun line => line.AccountRef.value == safe &&
            (find_first_mapping re line maps).isSome) then
        some { id := j.Id, date := j.TxnDate.getD []
               lines := j.Line.filterMap (fun line =>
                 if line.AccountRef.value ≠ safe then none
                 else
                   match find_first_mapping re line maps with
                   | none => none
                   | some m =>
                     if m.to_account_id ≠ [] then
                       some { description := line.Description.getD []
                              amount := line.Amount.getD 0
                              posting_type := line.PostingType
                              current_account := line.AccountRef
                              proposed_account :=
                                get_account_by_id ledger m.to_account_id }
                     else none)
               has_changes := true }
      else none) := by
  unfold format_journal
  rw [format_lines_eq]
  by_cases hany : (j.Line.any (fun line => line.AccountRef.value == safe &&
      (find_first_mapping re line maps).isSome)) = true
  · simp [hany]
  · simp only [Bool.not_eq_true] at hany
    simp [hany]

/-- Fixture: an active rule whose destination account id is the empty string
(importable through `import_mappings`, whose required-field check only tests
key presence, unlike `create_mapping`'s truthiness check). -/
def ruleEmptyTo : DBAccountMapping :=
  ⟨1, none, str "amazon", str "60", none, [], none, true, false, none, 0⟩

/-- Fixture: a store whose only rule has an empty destination account id. -/
def store7 : List DBAccountMapping := [ruleEmptyTo]

/-- C7 (counterexample): `preview` CAN return an entry with zero proposed
lines: a line matching a rule whose `to_account_id` is falsy sets
`has_changes` but is not emitted, so the entry comes back with
`has_changes = true` and an empty `lines` list. -/
theorem c7_counterexample :
    get_journals_by_account noRegex ledgerNone store7 [] [j1] (str "60")
      = [{ id := str "301", date := str "2025-01-15", lines := [],
           has_changes := true }] := by
  decide

/-- C7 (amended): provided every loaded rule has a non-empty
`to_account_id` (which `create_mapping` guarantees but `import_mappings`
does not), every entry returned by `preview` has `has_changes` set and at
least one proposed line; and, unconditionally, an entry none of whose
selected-account lines matches any rule is dropped from the output. -/
theorem c7_no_changeless_entries (re : RegexEngine) (ledger : Ledger)
    (store : List DBAccountMapping) (cfg : List AccountMapping)
    (journals : List JournalEntry) (account_id : Str) :
    ((∀ m ∈ get_account_mappings store cfg, m.to_account_id ≠ []) →
      ∀ fj ∈ get_journals_by_account re ledger store cfg journals account_id,
        fj.has_changes = true ∧ fj.lines ≠ []) ∧
    (∀ safe j, (∀ l ∈ j.Line, l.AccountRef.value = safe →
        find_first_mapping re l (get_account_mappings store cfg) = none) →
      format_journal re ledger (get_account_mappings store cfg) safe j
        = none) := by
  constructor
  · intro hto fj hfj
    unfold get_journals_by_account at hfj
    rcases hs : sanitize_id account_id with _ | safe
    · rw [hs] at hfj
      simp at hfj
    · rw [hs] at hfj
      simp only [List.mem_filterMap] at hfj
      rcases hfj with ⟨j, _, hfmt⟩
      rw [format_journal_eq] at hfmt
      by_cases hany : (j.Line.any (fun line =>
          line.AccountRef.value == safe &&
            (find_first_mapping re line (get_account_mappings store cfg)).isSome))
          = true
      · rw [if_pos hany] at hfmt
        rcases List.any_eq_true.mp hany with ⟨l, hl, hcond⟩
        rcases Bool.and_eq_true _ _ |>.mp hcond with ⟨hval, hsome⟩
        rcases Option.isSome_iff_exists.mp hsome with ⟨m, hfind⟩
        have hmem := find_first_mapping_mem re l _ m hfind
        have hto2 := hto m hmem
        have hval2 : l.AccountRef.value = safe := by simpa using hval
        cases hfmt
        refine ⟨rfl, fun hnil => ?_⟩
        have hfl := (List.filterMap_eq_nil_iff.mp hnil) l hl
        simp [hval2, hfind, hto2] at hfl
      · rw [if_neg hany] at hfmt
        cases hfmt
  · intro safe j hnone
    rw [format_journal_eq]
    rw [if_neg ?_]
    simp only [List.any_eq_true, not_exists]
    intro l
    simp only [not_and]
    intro hl hcond
    rcases Bool.and_eq_true _ _ |>.mp hcond with ⟨hval, hsome⟩
    have hval2 : l.AccountRef.value = safe := by simpa using hval
    rw [hnone l hl hval2] at hsome
    simp at hsome

/-- Witness for C7 (amended) at a concrete non-degenerate store. -/
theorem c7_witness :
    (∀ m ∈ get_account_mappings store1 [], m.to_account_id ≠ []) ∧
    ∀ fj ∈ get_journals_by_account noRegex ledgerNone store1 [] [j1] (str "60"),
      fj.has_changes = true ∧ fj.lines ≠ [] :=
  ⟨by decide,
    (c7_no_changeless_entries noRegex ledgerNone store1 [] [j1]
      (str "60")).1 (by decide)⟩

/-- Whether, in the apply loop, processing this line raises: its first
matching rule's destination lookup throws (`Account.get` raising is the only
uncaught exception inside the per-line loop). -/
def line_err (re : RegexEngine) (acc : Str → QueryRes AccountInfo)
    (maps : List AccountMapping) (l : JournalLine) : Bool :=
  match find_first_mapping re l maps with
  | none => false
  | some m =>
    match acc m.to_account_id with
    | .err => true
    | _ => false

/-- The change the apply loop records for one line: the first matching rule's
destination, when the lookup returns an account. -/
def line_result (re : RegexEngine) (acc : Str → QueryRes AccountInfo)
    (maps : List AccountMapping) (safe_id : Str) (l : JournalLine) :
    Option ChangeResult :=
  match find_first_mapping re l maps with
  | none => none
  | some m =>
    match acc m.to_account_id with
    | .ok a => some { journal_id := safe_id
                      line_description := l.Description.getD []
                      old_account := l.AccountRef
                      new_account := a }
    | _ => none

/-- The history row the apply loop queues for one line (same condition as
`line_result`). -/
def line_history (re : RegexEngine) (acc : Str → QueryRes AccountInfo)
    (maps : List AccountMapping) (safe_id : Str) (jdate : Option Str)
    (l : JournalLine) : Option HistoryEntry :=
  match find_first_mapping re l maps with
  | none => none
  | some m =>
    match acc m.to_account_id with
    | .ok a => some { journal_id := safe_id
                      journal_date := jdate
                      line_description := l.Description.getD []
                      from_account := l.AccountRef
                      to_account := a
                      amount := l.Amount }
    | _ => none

theorem process_lines_eq (re : RegexEngine) (ledger : Ledger)
    (maps : List AccountMapping) (safe_id : Str) (jdate : Option Str)
    (lines : List JournalLine) :
    process_lines re ledger maps safe_id jdate lines =
      ((lines.takeWhile
          (fun l => !(line_err re ledger.accounts maps l))).filterMap
            (line_result re ledger.accounts maps safe_id),
       (lines.takeWhile
          (fun l => !(line_err re ledger.accounts maps l))).filterMap
            (line_history re ledger.accounts maps safe_id jdate),
       !((lines.takeWhile
          (fun l => !(line_err re ledger.accounts maps l))).filterMap
            (line_result re ledger.accounts maps safe_id)).isEmpty,
       lines.any (line_err re ledger.accounts maps)) := by
  induction lines with
  | nil => rfl
  | cons line rest ih =>
    rcases hf : find_first_mapping re line maps with _ | m
    · simp [process_lines, line_err, line_result, line_history,
        List.takeWhile_cons, hf, ih]
    · rcases ha : ledger.accounts m.to_account_id with a | _ | _
      · simp [process_lines, line_err, line_result, line_history,
          List.takeWhile_cons, hf, ha, ih]
      · simp [process_lines, line_err, line_result, line_history,
          List.takeWhile_cons, hf, ha, ih]
      · simp [process_lines, line_err, line_result, line_history,
          List.takeWhile_cons, hf, ha, ih]

/-- Fixture: destination account 62. -/
def acct62 : AccountInfo := ⟨str "62", str "AWS Costs"⟩

/-- Fixture: a ledger holding `j1` and account 62 whose `save` always raises. -/
def ledgerSaveFail : Ledger :=
  ⟨fun a => if a = str "62" then .ok acct62 else .missing,
   fun v => if v = str "301" then .ok j1 else .missing,
   fun _ => true⟩

/-- C2 (counterexample): a history record IS created for a line whose change
was never persisted: with `journal.save` raising, the batch saves nothing,
yet one history row for the journal's matched line is committed (and the
line is even reported in `results`). -/
theorem c2_counterexample :
    (update_journals_accounts noRegex ledgerSaveFail store1 []
        [str "301"]).saved = [] ∧
    (update_journals_accounts noRegex ledgerSaveFail store1 []
        [str "301"]).history.length = 1 ∧
    (update_journals_accounts noRegex ledgerSaveFail store1 []
        [str "301"]).results.length = 1 := by
  decide

theorem process_journal_notfound (re : RegexEngine) (ledger : Ledger)
    (maps : List AccountMapping) (jid : Str) (safe : Str)
    (hs : sanitize_id jid = some safe)
    (hj : ledger.journals safe = .missing) :
    process_journal re ledger maps jid = ([], [], []) := by
  unfold process_journal
  rw [hs]
  dsimp only
  rw [hj]

theorem process_journal_fetcherr (re : RegexEngine) (ledger : Ledger)
    (maps : List AccountMapping) (jid : Str) (safe : Str)
    (hs : sanitize_id jid = some safe)
    (hj : ledger.journals safe = .err) :
    process_journal re ledger maps jid = ([], [], []) := by
  unfold process_journal
  rw [hs]
  dsimp only
  rw [hj]

theorem process_journal_parts (re : RegexEngine) (ledger : Ledger)
    (maps : List AccountMapping) (jid : Str) (safe : Str) (j : JournalEntry)
    (hs : sanitize_id jid = some safe)
    (hj : ledger.journals safe = .ok j) :
    process_journal re ledger maps jid =
      ((j.Line.takeWhile
          (fun l => !(line_err re ledger.accounts maps l))).filterMap
            (line_result re ledger.accounts maps safe),
       (j.Line.takeWhile
          (fun l => !(line_err re ledger.accounts maps l))).filterMap
            (line_history re ledger.accounts maps safe j.TxnDate),
       if j.Line.any (line_err re ledger.accounts maps) then []
       else if !((j.Line.takeWhile
              (fun l => !(line_err re ledger.accounts maps l))).filterMap
                (line_result re ledger.accounts maps safe)).isEmpty then
         (if ledger.saveFails safe then [] else [safe])
       else []) := by
  unfold process_journal
  rw [hs]
  dsimp only
  rw [hj]
  dsimp only
  rw [process_lines_eq]
  dsimp only
  by_cases h1 : (j.Line.any (line_err re ledger.accounts maps)) = true
  · simp only [h1, if_true]
  · simp only [Bool.not_eq_true] at h1
    simp only [h1, Bool.false_eq_true, if_false]
    by_cases h2 : (!((j.Line.takeWhile
        (fun l => !(line_err re ledger.accounts maps l))).filterMap
          (line_result re ledger.accounts maps safe)).isEmpty) = true
    · simp only [h2, if_true]
      by_cases h3 : ledger.saveFails safe = true
      · simp only [h3, if_true]
      · simp only [Bool.not_eq_true] at h3
        simp only [h3, Bool.false_eq_true, if_false]
    · simp only [Bool.not_eq_true] at h2
      simp only [h2, Bool.false_eq_true, if_false]

/-- C2 (amended): as long as destination lookups do not raise, the committed
history of an apply batch is exactly one row per line change made in memory
— per fetched journal, per line whose first matching rule's destination
resolves — regardless of whether each journal's save to the external ledger
succeeds or fails (the save behaviour `sf` does not appear on the
right-hand side). -/
theorem c2_history_once_per_line_change (re : RegexEngine)
    (acc : Str → QueryRes AccountInfo) (jrn : Str → QueryRes JournalEntry)
    (store : List DBAccountMapping) (cfg : List AccountMapping)
    (journal_ids : List Str) (hne : ∀ a, acc a ≠ .err) (sf : Str → Bool) :
    (update_journals_accounts re ⟨acc, jrn, sf⟩ store cfg
        journal_ids).history =
      journal_ids.flatMap (fun jid =>
        match sanitize_id jid with
        | none => []
        | some safe =>
          match jrn safe with
          | .ok j => j.Line.filterMap
              (line_history re acc (get_account_mappings store cfg) safe
                j.TxnDate)
          | _ => []) := by
  have hall : ∀ lines : List JournalLine, lines.takeWhile
      (fun l => !(line_err re acc (get_account_mappings store cfg) l))
        = lines := by
    intro lines
    rw [List.takeWhile_eq_self_iff]
    intro l _
    simp only [Bool.not_eq_eq_eq_not, Bool.not_true]
    unfold line_err
    rcases hf : find_first_mapping re l (get_account_mappings store cfg)
      with _ | m
    · rfl
    · rcases ha : acc m.to_account_id with a | _ | _
      · simp [line_err, hf, ha]
      · simp [line_err, hf, ha]
      · exact absurd ha (hne m.to_account_id)
  induction journal_ids with
  | nil => rfl
  | cons jid rest ih =>
    simp only [update_journals_accounts, update_journals_accounts.go,
      List.flatMap_cons] at ih ⊢
    rw [ih]
    congr 1
    rcases hs : sanitize_id jid with _ | safe
    · rw [process_journal_invalid _ _ _ _ hs]
    · dsimp only
      rcases hj : jrn safe with j | _ | _
      · rw [process_journal_parts re ⟨acc, jrn, sf⟩ _ jid safe j hs hj]
        dsimp only
        rw [hall j.Line]
      · rw [process_journal_notfound re ⟨acc, jrn, sf⟩ _ jid safe hs hj]
      · rw [process_journal_fetcherr re ⟨acc, jrn, sf⟩ _ jid safe hs hj]

/-- Witness for C2 (amended): the batch whose save always fails still gets
exactly the per-line history. -/
theorem c2_witness :
    (∀ a, ledgerSaveFail.accounts a ≠ .err) ∧
    (update_journals_accounts noRegex
        ⟨ledgerSaveFail.accounts, ledgerSaveFail.journals, fun _ => true⟩
        store1 [] [str "301"]).history =
      [str "301"].flatMap (fun jid =>
        match sanitize_id jid with
        | none => []
        | some safe =>
          match ledgerSaveFail.journals safe with
          | .ok j => j.Line.filterMap
              (line_history noRegex ledgerSaveFail.accounts
                (get_account_mappings store1 []) safe j.TxnDate)
          | _ => []) :=
  ⟨fun a => by by_cases h : a = str "62" <;> simp [ledgerSaveFail, h],
   c2_history_once_per_line_change noRegex ledgerSaveFail.accounts
     ledgerSaveFail.journals store1 [] [str "301"]
     (fun a => by by_cases h : a = str "62" <;> simp [ledgerSaveFail, h])
     (fun _ => true)⟩

/-- Fixture: a second matching line whose rule's destination is account 99. -/
def lineB : JournalLine :=
  ⟨some (str "UBER TRIP"), some 50, str "Debit", ⟨str "60", none⟩⟩

/-- Fixture: an active rule sending matching lines to (nonexistent) account 99. -/
def ruleB : DBAccountMapping :=
  ⟨2, none, str "uber", str "60", none, str "99", none, true, false, none, 1⟩

/-- Fixture: a journal whose first line resolves and whose second does not. -/
def j2 : JournalEntry := ⟨str "302", some (str "2025-01-16"), [line60, lineB]⟩

/-- Fixture: the two-rule store for the apply scenarios. -/
def store3 : List DBAccountMapping := [rule9, ruleB]

/-- Fixture: ledger holding `j2` and account 62 only; saves succeed. -/
def ledger3 : Ledger :=
  ⟨fun a => if a = str "62" then .ok acct62 else .missing,
   fun v => if v = str "302" then .ok j2 else .missing,
   fun _ => false⟩

/-- C3 (counterexample): an entry with a line whose destination account
cannot be resolved (the lookup returns nothing) does NOT fail as a whole:
the unresolved line is skipped and the entry is still saved with the other
line's change persisted. -/
theorem c3_counterexample :
    ledger3.accounts (str "99") = .missing ∧
    find_first_mapping noRegex lineB (get_account_mappings store3 []) =
      some (toAccountMapping ruleB) ∧
    (update_journals_accounts noRegex ledger3 store3 [] [str "302"]).saved
      = [str "302"] ∧
    (update_journals_accounts noRegex ledger3 store3 []
        [str "302"]).results.length = 1 := by
  decide

/-- C3 (amended): a line whose first matching rule's destination lookup
returns no account is skipped with a warning — the remaining lines are still
processed exactly as if the line were absent — and the entry is still saved
when some other line changed; only a lookup that RAISES aborts the entry
(that path is covered by the `line_err` prefix in `process_lines_eq`). -/
theorem c3_unresolved_destination_skips_line (re : RegexEngine)
    (ledger : Ledger) (maps : List AccountMapping) :
    (∀ safe_id jdate (l : JournalLine) (rest : List JournalLine)
        (m : AccountMapping),
      find_first_mapping re l maps = some m →
      ledger.accounts m.to_account_id = .missing →
      process_lines re ledger maps safe_id jdate (l :: rest) =
        process_lines re ledger maps safe_id jdate rest) ∧
    (∀ jid safe j, sanitize_id jid = some safe →
      ledger.journals safe = .ok j →
      j.Line.any (line_err re ledger.accounts maps) = false →
      (∃ l ∈ j.Line,
        line_result re ledger.accounts maps safe l ≠ none) →
      ledger.saveFails safe = false →
      (process_journal re ledger maps jid).2.2 = [safe]) := by
  constructor
  · intro safe_id jdate l rest m hf hm
    simp [process_lines, hf, hm]
  · intro jid safe j hs hj hnoerr hsome hsv
    rw [process_journal_parts re ledger maps jid safe j hs hj]
    dsimp only
    have hall : j.Line.takeWhile
        (fun l => !(line_err re ledger.accounts maps l)) = j.Line := by
      rw [List.takeWhile_eq_self_iff]
      intro x hx
      have hx2 := List.any_eq_false.mp hnoerr x hx
      simp [hx2]
    rw [hall]
    have hne2 : (j.Line.filterMap
        (line_result re ledger.accounts maps safe)) ≠ [] := by
      rcases hsome with ⟨l, hl, hres⟩
      intro hnil
      exact hres (List.filterMap_eq_nil_iff.mp hnil l hl)
    have hE : (j.Line.filterMap
        (line_result re ledger.accounts maps safe)).isEmpty = false := by
      cases hE0 : (j.Line.filterMap
          (line_result re ledger.accounts maps safe)).isEmpty with
      | true => exact absurd (List.isEmpty_iff.mp hE0) hne2
      | false => rfl
    simp [hnoerr, hE, hsv]

/-- Witness for C3 (amended): the two-line journal with one unresolvable
destination is still saved. -/
theorem c3_witness :
    (sanitize_id (str "302") = some (str "302")) ∧
    (ledger3.journals (str "302") = .ok j2) ∧
    (j2.Line.any (line_err noRegex ledger3.accounts
        (get_account_mappings store3 [])) = false) ∧
    (∃ l ∈ j2.Line, line_result noRegex ledger3.accounts
        (get_account_mappings store3 []) (str "302") l ≠ none) ∧
    (ledger3.saveFails (str "302") = false) ∧
    (process_journal noRegex ledger3 (get_account_mappings store3 [])
        (str "302")).2.2 = [str "302"] :=
  ⟨by decide, by decide, by decide, by decide, rfl,
    (c3_unresolved_destination_skips_line noRegex ledger3
        (get_account_mappings store3 [])).2
      (str "302") (str "302") j2 (by decide) (by decide) (by decide)
      (by decide) rfl⟩

theorem create_mapping_duplicate (reOk : Str → Bool)
    (store : List DBAccountMapping) (d : CreateInput)
    (hp : d.pattern ≠ []) (hf : d.from_account_id ≠ [])
    (ht : d.to_account_id ≠ [])
    (hdup : ∃ m ∈ store, m.is_active = true ∧ m.pattern = d.pattern ∧
      m.from_account_id = d.from_account_id) :
    create_mapping reOk store d = (store, .duplicate) := by
  rcases hdup with ⟨m, hm, hact, hpat, hfrom⟩
  unfold create_mapping
  rw [if_neg hp, if_neg hf, if_neg ht, if_pos]
  exact List.any_eq_true.mpr ⟨m, hm, by simp [hact, hpat, hfrom]⟩

theorem create_mapping_ok (reOk : Str → Bool)
    (store : List DBAccountMapping) (d : CreateInput)
    (hp : d.pattern ≠ []) (hf : d.from_account_id ≠ [])
    (ht : d.to_account_id ≠ [])
    (hnodup : ∀ m ∈ store, m.is_active = true → m.pattern = d.pattern →
      m.from_account_id ≠ d.from_account_id)
    (hreg : d.is_regex = true → reOk d.pattern = true) :
    ∃ mNew, create_mapping reOk store d = (store ++ [mNew], .created mNew) ∧
      mNew.pattern = d.pattern ∧ mNew.from_account_id = d.from_account_id ∧
      mNew.to_account_id = d.to_account_id ∧ mNew.is_regex = d.is_regex ∧
      mNew.is_active = d.is_active := by
  unfold create_mapping
  rw [if_neg hp, if_neg hf, if_neg ht, if_neg, if_neg]
  · exact ⟨_, rfl, rfl, rfl, rfl, rfl, rfl⟩
  · rintro ⟨h1, h2⟩
    exact h2 (hreg h1)
  · intro hany
    rcases List.any_eq_true.mp hany with ⟨m, hm, hcond⟩
    simp only [Bool.and_eq_true, beq_iff_eq] at hcond
    exact hnodup m hm hcond.2 hcond.1.1 hcond.1.2

/-- Fixture: an active rule for (stripe, 60) in scope 100. -/
def rA : DBAccountMapping :=
  ⟨1, some (str "100"), str "stripe", str "60", none, str "70", none, true,
    false, none, 0⟩

/-- Fixture: an active rule with the SAME (pattern, from) pair in scope 200. -/
def rBdup : DBAccountMapping :=
  ⟨2, some (str "200"), str "stripe", str "60", none, str "71", none, true,
    false, none, 1⟩

/-- Fixture: a two-scope store holding both rules. -/
def store4 : List DBAccountMapping := [rA, rBdup]

/-- Fixture: `store4` after disabling rule 1 (scope 100's only matching rule). -/
def store4d : List DBAccountMapping :=
  [⟨1, some (str "100"), str "stripe", str "60", none, str "70", none, false,
    false, none, 0⟩, rBdup]

/-- Fixture: the creation request for the same (pattern, from) pair. -/
def input4 : CreateInput :=
  { pattern := str "stripe", from_account_id := str "60",
    to_account_id := str "72" }

/-- C4 (counterexample): the duplicate check ignores the scope.  After
disabling the only active (stripe, 60) rule in scope 100, creating the pair
again still fails with the duplicate conflict, because an active rule with
the same pair exists in scope 200. -/
theorem c4_counterexample :
    toggle_mapping store4 1 = some store4d ∧
    (¬ ∃ m ∈ store4d, m.realm_id = some (str "100") ∧ m.is_active = true ∧
      m.pattern = str "stripe" ∧ m.from_account_id = str "60") ∧
    create_mapping (fun _ => true) store4d input4 = (store4d, .duplicate) := by
  refine ⟨by decide, by decide, by decide⟩

/-- C4 (amended): the duplicate check is global across scopes.  Creating a
rule fails with the duplicate conflict — and adds nothing — exactly when an
active rule with the same (pattern, from_account_id) exists ANYWHERE; when
the blocking rule is the only active rule with the pair in the whole store,
disabling it makes the same creation succeed. -/
theorem c4_duplicate_then_disable_then_create (reOk : Str → Bool)
    (store : List DBAccountMapping) (d : CreateInput)
    (hp : d.pattern ≠ []) (hf : d.from_account_id ≠ [])
    (ht : d.to_account_id ≠ []) :
    ((∃ m ∈ store, m.is_active = true ∧ m.pattern = d.pattern ∧
        m.from_account_id = d.from_account_id) →
      create_mapping reOk store d = (store, .duplicate)) ∧
    ((∀ m ∈ store, m.is_active = true → m.pattern = d.pattern →
        m.from_account_id ≠ d.from_account_id) →
      (d.is_regex = true → reOk d.pattern = true) →
      ∃ mNew, create_mapping reOk store d = (store ++ [mNew], .created mNew) ∧
        mNew.pattern = d.pattern ∧ mNew.from_account_id = d.from_account_id ∧
        mNew.to_account_id = d.to_account_id) ∧
    (∀ r ∈ store, (∀ m ∈ store, m.id = r.id → m = r) →
      r.is_active = true → r.pattern = d.pattern →
      r.from_account_id = d.from_account_id →
      (∀ m ∈ store, m.is_active = true → m.pattern = d.pattern →
        m.from_account_id = d.from_account_id → m = r) →
      (d.is_regex = true → reOk d.pattern = true) →
      create_mapping reOk store d = (store, .duplicate) ∧
      ∃ store2 mNew, toggle_mapping store r.id = some store2 ∧
        create_mapping reOk store2 d = (store2 ++ [mNew], .created mNew)) := by
  refine ⟨fun hdup => create_mapping_duplicate reOk store d hp hf ht hdup,
    fun hnodup hreg => ?_, fun r hr hid hact hpat hfrom huniq hreg => ?_⟩
  · rcases create_mapping_ok reOk store d hp hf ht hnodup hreg with
      ⟨mNew, heq, h1, h2, h3, _⟩
    exact ⟨mNew, heq, h1, h2, h3⟩
  · refine ⟨create_mapping_duplicate reOk store d hp hf ht
      ⟨r, hr, hact, hpat, hfrom⟩, ?_⟩
    have htog : toggle_mapping store r.id =
        some (store.map (fun m =>
          if m.id == r.id then { m with is_active := !m.is_active } else m)) := by
      unfold toggle_mapping
      rw [if_pos]
      exact List.any_eq_true.mpr ⟨r, hr, by simp⟩
    have hnodup2 : ∀ m2 ∈ store.map (fun m =>
        if m.id == r.id then { m with is_active := !m.is_active } else m),
        m2.is_active = true → m2.pattern = d.pattern →
        m2.from_account_id ≠ d.from_account_id := by
      intro m2 hm2 hact2 hpat2 hfrom2
      rcases List.mem_map.mp hm2 with ⟨m, hm, hfm⟩
      by_cases hmid : m.id = r.id
      · have hmr : m = r := hid m hm hmid
        subst hmr
        rw [if_pos (by simp)] at hfm
        rw [← hfm] at hact2
        simp [hact] at hact2
      · rw [if_neg (by simp [hmid])] at hfm
        subst hfm
        have := huniq m hm hact2 hpat2 hfrom2
        exact hmid (by rw [this])
    rcases create_mapping_ok reOk _ d hp hf ht hnodup2 hreg with
      ⟨mNew, heq, _⟩
    exact ⟨_, mNew, htog, heq⟩

/-- Witness for C4 (amended): the full create → conflict → disable → create
scenario at a concrete one-rule store. -/
theorem c4_witness :
    (str "stripe" ≠ ([] : Str)) ∧
    create_mapping (fun _ => true) [rA] input4 = ([rA], .duplicate) ∧
    ∃ store2 mNew, toggle_mapping [rA] rA.id = some store2 ∧
      create_mapping (fun _ => true) store2 input4
        = (store2 ++ [mNew], .created mNew) :=
  ⟨by decide,
    ((c4_duplicate_then_disable_then_create (fun _ => true) [rA] input4
        (by decide) (by decide) (by decide)).2.2 rA (by decide) (by decide)
        (by decide) (by decide) (by decide) (by decide) (by decide)).1,
    ((c4_duplicate_then_disable_then_create (fun _ => true) [rA] input4
        (by decide) (by decide) (by decide)).2.2 rA (by decide) (by decide)
        (by decide) (by decide) (by decide) (by decide) (by decide)).2⟩

theorem reorder_foldl_enumFrom (order : List Int) (hnd : order.Nodup)
    (n : Nat) (store : List DBAccountMapping) :
    (List.enumFrom n order).foldl
      (fun st p =>
        st.map (fun m =>
          if m.id == p.2 then { m with sort_order := (p.1 : Int) } else m))
      store
    = store.map (fun m =>
        if m.id ∈ order then
          { m with sort_order := ((n + order.indexOf m.id : Nat) : Int) }
        else m) := by
  induction order generalizing n store with
  | nil =>
    simp
  | cons o os ih =>
    rw [List.enumFrom_cons, List.foldl_cons]
    rw [ih (List.nodup_cons.mp hnd).2]
    rw [List.map_map]
    refine List.map_congr_left ?_
    intro m _
    simp only [Function.comp_apply]
    by_cases hmo : m.id = o
    · have hos : o ∉ os := hmo ▸ (List.nodup_cons.mp hnd).1
      simp [hmo, hos, List.indexOf_cons]
    · have hom : ¬ o = m.id := fun h => hmo h.symm
      by_cases hmem : m.id ∈ os
      · simp [hmo, hom, hmem, List.indexOf_cons]
        omega
      · simp [hmo, hmem]

/-- Fixture rules with ids 1, 2, 3 and sort_order 1, 2, 3. -/
def s81 : DBAccountMapping :=
  ⟨1, none, str "aaa", str "60", none, str "70", none, true, false, none, 1⟩

def s82 : DBAccountMapping :=
  ⟨2, none, str "bbb", str "60", none, str "71", none, true, false, none, 2⟩

def s83 : DBAccountMapping :=
  ⟨3, none, str "ccc", str "60", none, str "72", none, true, false, none, 3⟩

/-- Fixture: the three-rule store for the reorder scenario. -/
def store8 : List DBAccountMapping := [s81, s82, s83]

/-- C8 (confirmed): reorder assigns each rule whose id occurs in the list the
sort_order equal to the id's 0-based position, leaves every other rule
untouched (ids not found in the store are silently skipped since the update
is a per-rule map), and, concretely, after reordering [3, 1, 2] the listing
returns the rules in exactly that order with sort_order 0, 1, 2. -/
theorem c8_reorder_assigns_positions :
    (∀ (store : List DBAccountMapping) (order : List Int), order.Nodup →
      reorder_mappings store order = store.map (fun m =>
        if m.id ∈ order then
          { m with sort_order := ((order.indexOf m.id : Nat) : Int) }
        else m)) ∧
    list_mappings (reorder_mappings store8 [3, 1, 2]) true =
      [{ s83 with sort_order := 0 }, { s81 with sort_order := 1 },
        { s82 with sort_order := 2 }] := by
  constructor
  · intro store order hnd
    unfold reorder_mappings
    rw [show List.enum order = List.enumFrom 0 order from rfl]
    rw [reorder_foldl_enumFrom order hnd 0 store]
    simp
  · decide

/-- Witness for C8: the general position-assignment equation evaluated at the
concrete three-rule store. -/
theorem c8_witness :
    ([3, 1, 2] : List Int).Nodup ∧
    reorder_mappings store8 [3, 1, 2] = store8.map (fun m =>
      if m.id ∈ ([3, 1, 2] : List Int) then
        { m with sort_order := ((([3, 1, 2] : List Int).indexOf m.id : Nat) : Int) }
      else m) :=
  ⟨by decide, c8_reorder_assigns_positions.1 store8 [3, 1, 2] (by decide)⟩

/-- C5 (code bug): the round-trip breaks on the code as written.  Exporting a
store containing any rule with an unset (`NULL`) category — the default for
rules created without a category — produces an item whose `category` is
`null`; importing that array runs `None.strip()` and raises
`AttributeError`, so the whole import is rolled back and the exported rule
set is not reproduced at all. -/
theorem c5_import_of_export_crashes :
    (export_mappings store1).map (fun e => e.category) = [none] ∧
    import_mappings (fun _ => true) [] (export_mappings store1)
      = .attrError ∧
    store1 ≠ [] := by
  decide
